import Mathlib

/-!
Verification development for the `ublock-chrome` CLI
(`src/ublock_chrome/cli.py`), a macOS installer for the uBlock Origin
Chrome extension.  The Python program is sequential orchestration of
network and filesystem operations; we shallowly embed the state it
manipulates (directory trees, a temporary download file, the running
browser process) and the operations of `cli.py`, and prove the
specification's claims about them.

Conventions of the embedding:
* directory contents are `FSTree` values (a file with string content, or
  a directory with a named entry list);
* network and archive outcomes (`urlretrieve`, `ZipFile`, `json.load`)
  are oracle parameters, since their internals live outside the repo;
* `Path.exists()` is entry lookup (true for files and directories alike,
  as in Python);
* process control (`pgrep`/`osascript`/`pkill`) is driven by a boolean
  oracle `present : Nat → Bool` giving the poll results in order.
-/

namespace UblockChrome

/-! ### Constants (cli.py lines 39-47) -/

def INSTALL_DIR (home : String) : String := home ++ "/.ublock-chrome"

def EXTENSION_DIR (home : String) : String := INSTALL_DIR home ++ "/extension"

def APP_NAME : String := "Chrome (uBO).app"

def CHROME_APP_PATH : String := "/Applications/Google Chrome.app"

def MV2_FLAGS : String :=
  "--disable-features=ExtensionManifestV2Unsupported,ExtensionManifestV2Disabled"

/-! ### Python `pat in s` substring test -/

def containsSubAux (pat : List Char) : List Char → Bool
  | [] => pat.isEmpty
  | c :: cs => pat.isPrefixOf (c :: cs) || containsSubAux pat cs

/-- Python's `pat in s` on strings. -/
def strContains (s pat : String) : Bool := containsSubAux pat.data s.data

/-- Python's `str.lower`, character-wise. -/
def strToLower (s : String) : String := String.mk (s.data.map Char.toLower)

/-- Python's `str.endswith`. -/
def strEndsWith (s suffix : String) : Bool := suffix.data.isSuffixOf s.data

/-! ### ReleaseResolver (cli.py lines 89-108, `fetch_latest_release_url`) -/

structure Asset where
  name : String
  browser_download_url : String
deriving Repr, DecidableEq

structure ReleaseInfo where
  tag_name : String
  assets : List Asset
deriving Repr, DecidableEq

/-- The per-asset selection predicate of the loop at cli.py line 102:
`"chromium" in name.lower() and name.endswith(".zip")`. -/
def isChromiumZip (name : String) : Bool :=
  strContains (strToLower name) "chromium" && strEndsWith name ".zip"

/-- Prefix of the error message at cli.py lines 105-108; the release tag is
appended to it. -/
def noAssetMsgPrefix : String :=
  "Could not find a Chromium .zip asset in the latest uBlock Origin release.\nCheck https://github.com/gorhill/uBlock/releases/tag/"

/-- cli.py lines 89-108: scan the release's assets in order and return the
download URL of the first Chromium `.zip` together with the tag, or fail
with a message embedding the tag.  The network fetch and JSON decode are
abstracted into the `ReleaseInfo` argument. -/
def fetch_latest_release_url (r : ReleaseInfo) : Except String (String × String) :=
  match r.assets.find? (fun a => isChromiumZip a.name) with
  | some a => Except.ok (a.browser_download_url, r.tag_name)
  | none => Except.error (noAssetMsgPrefix ++ r.tag_name)

/-! ### Filesystem trees -/

inductive FSTree where
  | file (content : String)
  | dir (entries : List (String × FSTree))

/-- First entry with the given name, if any (`Path` lookup). -/
def findEntry (es : List (String × FSTree)) (nm : String) : Option FSTree :=
  match es.find? (fun e => e.1 == nm) with
  | some e => some e.2
  | none => none

/-- Python's `(dir / nm).exists()`: true whether the entry is a file or a
directory. -/
def entryExists (es : List (String × FSTree)) (nm : String) : Bool :=
  es.any (fun e => e.1 == nm)

def FSTree.isFile : FSTree → Bool
  | .file _ => true
  | .dir _ => false

/-- An entry with the given name that is a regular file. -/
def hasFileEntry (es : List (String × FSTree)) (nm : String) : Bool :=
  es.any (fun e => e.1 == nm && e.2.isFile)

/-! ### ExtensionInstaller (cli.py lines 111-146, `download_and_extract`) -/

/-- State touched by `download_and_extract`: whether the temporary archive
file exists, and the extension directory (`none` if absent from disk). -/
structure DLState where
  tmpExists : Bool
  extDir : Option (List (String × FSTree))

inductive InstallError where
  | downloadError (msg : String)
  | unpackError (msg : String)
  | missingManifest (msg : String)
  | manifestReadError
  | jsonDecodeError
deriving Repr, DecidableEq

/-- The `finally` block (cli.py line 126): `os.unlink(tmp_path)`. -/
def unlinkTmp (s : DLState) : DLState := DLState.mk false s.extDir

/-- Python `try`/`finally`: run the body, then the finalizer on the body's
resulting state whether or not the body raised; a raised exception still
propagates. -/
def tryFinally {σ α ε : Type} (body : σ → σ × Except ε α) (fin : σ → σ)
    (s : σ) : σ × Except ε α :=
  ((fin (body s).1), (body s).2)

/-- The `try` body (cli.py lines 122-124): download the archive to the
temporary file, then `extractall` it into the (empty) extension
directory.  `dl` is the `urlretrieve` outcome; `unpack` is the
`ZipFile`/`extractall` outcome, carrying on success the entry list the
archive extracts to. -/
def dlBody (dl : Except String Unit)
    (unpack : Except String (List (String × FSTree)))
    (s : DLState) : DLState × Except InstallError Unit :=
  match dl with
  | Except.error e => (s, Except.error (InstallError.downloadError e))
  | Except.ok _ =>
    match unpack with
    | Except.error e => (s, Except.error (InstallError.unpackError e))
    | Except.ok tree => (DLState.mk s.tmpExists (some tree), Except.ok ())

/-- cli.py lines 130-139: if the extension directory holds exactly one
entry, that entry is a directory, and `manifest.json` exists inside it,
move every child of the subdirectory up one level and remove the (then
empty) subdirectory; otherwise leave the directory unchanged. -/
def flattenStep : List (String × FSTree) → List (String × FSTree)
  | [(nm, FSTree.dir sub)] =>
    if entryExists sub "manifest.json" then sub else [(nm, FSTree.dir sub)]
  | es => es

/-- The message of the `RuntimeError` at cli.py line 143. -/
def manifestNotFoundMsg (home : String) : String :=
  "manifest.json not found after extraction in " ++ EXTENSION_DIR home

/-- cli.py lines 111-146, `download_and_extract`: wipe and recreate the
extension directory, create a temporary file, download and unpack inside
`try`/`finally` (the temp file is unlinked on both paths), flatten a
single wrapping directory, then require `manifest.json` at the root and
read it.  `jsonOk c` is the oracle for whether `json.load` accepts the
manifest file's content `c`. -/
def download_and_extract (home : String) (dl : Except String Unit)
    (unpack : Except String (List (String × FSTree)))
    (jsonOk : String → Bool) (s : DLState) :
    DLState × Except InstallError String :=
  let s0 := DLState.mk s.tmpExists (some [])
  let s1 := DLState.mk true s0.extDir
  match tryFinally (dlBody dl unpack) unlinkTmp s1 with
  | (s2, Except.error e) => (s2, Except.error e)
  | (s2, Except.ok _) =>
    let es := flattenStep (s2.extDir.getD [])
    let s3 := DLState.mk s2.tmpExists (some es)
    match findEntry es "manifest.json" with
    | none =>
      (s3, Except.error (InstallError.missingManifest (manifestNotFoundMsg home)))
    | some (FSTree.dir _) => (s3, Except.error InstallError.manifestReadError)
    | some (FSTree.file c) =>
      if jsonOk c then (s3, Except.ok c) else (s3, Except.error InstallError.jsonDecodeError)

/-! ### LifecycleController process primitives (cli.py lines 254-298) -/

/-- Counts of the process-control signals sent by one run of
`quit_chrome_if_running`. -/
structure ProcActions where
  gracefulQuits : Nat
  forceKills : Nat
deriving Repr, DecidableEq

/-- The polling loop of cli.py lines 272-276: poll `pgrep` up to `fuel`
times starting at poll index `i`; return `true` when the loop runs out of
fuel without ever seeing the process gone (Python's `for`/`else` falls
through to the `else` arm), `false` when some poll reports it gone and
the loop breaks. -/
def pollWait (present : Nat → Bool) : Nat → Nat → Bool
  | _, 0 => true
  | i, Nat.succ fuel => if present i then pollWait present (i + 1) fuel else false

/-- cli.py lines 254-281, `quit_chrome_if_running`: the initial `pgrep`
(`initialPresent`) decides whether anything happens at all; if the
process is present, one graceful quit is requested, then the 30-round
poll loop runs, and `pkill -9` fires exactly when every poll still saw
the process. -/
def quit_chrome_if_running (initialPresent : Bool) (present : Nat → Bool) :
    ProcActions :=
  if !initialPresent then ProcActions.mk 0 0
  else if pollWait present 0 30 then ProcActions.mk 1 1
  else ProcActions.mk 1 0

/-- cli.py lines 284-298, `launch_chrome_with_ubo`: the exact argument
vector handed to `subprocess.Popen`. -/
def launch_chrome_with_ubo (home : String) : List String :=
  ["open", "-a", CHROME_APP_PATH, "--args", MV2_FLAGS,
   "--load-extension=" ++ EXTENSION_DIR home]

/-! ### LauncherBuilder (cli.py lines 149-251) -/

/-- The shell script generated at cli.py lines 168-208, line by line, with
the f-string holes (`CHROME_APP_PATH`, `MV2_FLAGS`, `ext_path`) filled
in. -/
def launcherScript (home : String) : String :=
  String.intercalate "\n"
    ["#!/bin/bash",
     "# ---------------------------------------------------------------",
     "# Chrome (uBO) — auto-generated by ublock-chrome",
     "# Launches Google Chrome with Manifest-V2 flags + uBlock Origin",
     "# ---------------------------------------------------------------",
     "",
     "CHROME_APP=\"" ++ CHROME_APP_PATH ++ "\"",
     "",
     "# If Chrome is already running, the flags will be ignored.",
     "# Offer to quit & relaunch.",
     "if pgrep -x \"Google Chrome\" > /dev/null 2>&1; then",
     "    CHOICE=$(osascript -e \x27",
     "        display dialog \"Chrome is already running.\\n\\nFlags are only applied on a fresh launch. Quit Chrome and relaunch with uBlock Origin?\" \\",
     "            buttons \x7b\"Cancel\", \"Quit Chrome & Relaunch\"\x7d \\",
     "            default button \"Quit Chrome & Relaunch\" \\",
     "            with title \"Chrome (uBO)\" \\",
     "            with icon caution\x27 -e \x27button returned of result\x27 2>/dev/null)",
     "",
     "    if [ \"$CHOICE\" != \"Quit Chrome & Relaunch\" ]; then",
     "        exit 0",
     "    fi",
     "",
     "    osascript -e \x27tell application \"Google Chrome\" to quit\x27 2>/dev/null",
     "",
     "    # Wait up to 15 s for Chrome to exit gracefully",
     "    for i in $(seq 1 30); do",
     "        pgrep -x \"Google Chrome\" > /dev/null 2>&1 || break",
     "        sleep 0.5",
     "    done",
     "",
     "    # Force-kill stragglers",
     "    if pgrep -x \"Google Chrome\" > /dev/null 2>&1; then",
     "        pkill -9 -x \"Google Chrome\"",
     "        sleep 1",
     "    fi",
     "fi",
     "",
     "open -a \"$CHROME_APP\" --args \\",
     "    " ++ MV2_FLAGS ++ " \\",
     "    --load-extension=\"" ++ EXTENSION_DIR home ++ "\""]
  ++ "\n"

/-- The `Info.plist` text generated at cli.py lines 214-231. -/
def infoPlist : String :=
  String.intercalate "\n"
    ["<?xml version=\"1.0\" encoding=\"UTF-8\"?>",
     "<!DOCTYPE plist PUBLIC \"-//Apple//DTD PLIST 1.0//EN\"",
     "  \"http://www.apple.com/DTDs/PropertyList-1.0.dtd\">",
     "<plist version=\"1.0\">",
     "<dict>",
     "    <key>CFBundleExecutable</key>      <string>launch.sh</string>",
     "    <key>CFBundleIdentifier</key>      <string>com.ublock-chrome.launcher</string>",
     "    <key>CFBundleName</key>            <string>Chrome (uBO)</string>",
     "    <key>CFBundleDisplayName</key>     <string>Chrome (uBO)</string>",
     "    <key>CFBundleVersion</key>         <string>1.0</string>",
     "    <key>CFBundlePackageType</key>     <string>APPL</string>",
     "    <key>CFBundleIconFile</key>        <string>AppIcon</string>",
     "    <key>LSMinimumSystemVersion</key>  <string>10.15</string>",
     "    <key>NSHighResolutionCapable</key> <true/>",
     "</dict>",
     "</plist>"]
  ++ "\n"

/-- The bundle tree `create_launcher_app` builds under
`INSTALL_DIR/APP_NAME` (entries in creation order: `MacOS` with the
executable script, `Resources` with the best-effort icon copy,
`Info.plist`).  `chromeIcon` is the content of Chrome's `app.icns` when
that file exists. -/
def launcherBundle (home : String) (chromeIcon : Option String) : FSTree :=
  FSTree.dir
    [("Contents", FSTree.dir
      [("MacOS", FSTree.dir [("launch.sh", FSTree.file (launcherScript home))]),
       ("Resources", FSTree.dir
         (match chromeIcon with
          | some c => [("AppIcon.icns", FSTree.file c)]
          | none => [])),
       ("Info.plist", FSTree.file infoPlist)])]

/-- The two launcher locations: the private copy under `INSTALL_DIR` and
the deployed copy under `~/Applications` (`none` when absent). -/
structure AppFS where
  privateBundle : Option FSTree
  appsBundle : Option FSTree

/-- cli.py lines 149-239, `create_launcher_app`: delete any existing
bundle at the private location, build the fresh bundle there, and return
its path. -/
def create_launcher_app (home : String) (chromeIcon : Option String)
    (s : AppFS) : AppFS × String :=
  (AppFS.mk (some (launcherBundle home chromeIcon)) s.appsBundle,
   INSTALL_DIR home ++ "/" ++ APP_NAME)

mutual

/-- `shutil.copytree`'s deep copy of a tree, node by node. -/
def copyTree : FSTree → FSTree
  | FSTree.file c => FSTree.file c
  | FSTree.dir es => FSTree.dir (copyEntries es)

def copyEntries : List (String × FSTree) → List (String × FSTree)
  | [] => []
  | (nm, t) :: rest => (nm, copyTree t) :: copyEntries rest

end

/-- cli.py lines 248-249: remove a prior copy at the applications-folder
destination, if one exists. -/
def removePriorAppCopy (s : AppFS) : AppFS :=
  if s.appsBundle.isSome then AppFS.mk s.privateBundle none else s

/-- cli.py lines 242-251, `install_app_to_applications`: ensure the
applications folder exists, remove any prior copy of the bundle there,
deep-copy the private bundle in, and return the destination path. -/
def install_app_to_applications (home : String) (s : AppFS) : AppFS × String :=
  (AppFS.mk (removePriorAppCopy s).privateBundle
     ((removePriorAppCopy s).privateBundle.map copyTree),
   home ++ ("/Applications/" ++ APP_NAME))

/-! ### Command handlers (cli.py lines 379-416) -/

/-- The error printed by `cmd_launch` when the extension is absent
(cli.py lines 405-409). -/
def launchNotInstalledMsg : String :=
  "Error: uBlock Origin is not installed yet.\nRun:  ublock-chrome install"

/-- Observable outcome of one `cmd_launch` run: exit status, error
message, process-control signals sent, and the `Popen` argument vector
if the browser was started. -/
structure LaunchResult where
  exitCode : Nat
  errMsg : Option String
  procActs : ProcActions
  popenArgs : Option (List String)
deriving Repr, DecidableEq

/-- cli.py lines 400-416, `cmd_launch` (after the OS/Chrome preflights):
if the extension directory or its root `manifest.json` is absent, exit
with status 1 and the install hint, touching no process; otherwise run
`quit_chrome_if_running` and then start Chrome via
`launch_chrome_with_ubo`. -/
def cmd_launch (home : String) (extensionDirExists manifestAtRoot : Bool)
    (initialPresent : Bool) (present : Nat → Bool) : LaunchResult :=
  if !extensionDirExists || !manifestAtRoot then
    LaunchResult.mk 1 (some launchNotInstalledMsg) (ProcActions.mk 0 0) none
  else
    LaunchResult.mk 0 none (quit_chrome_if_running initialPresent present)
      (some (launch_chrome_with_ubo home))

/-- One line of `cmd_uninstall` output: each target is reported as
removed or as not found. -/
inductive RemovalReport where
  | removed (path : String)
  | notFound (path : String)
deriving Repr, DecidableEq

/-- `shutil.rmtree p` at the level of a path-existence map. -/
def removePath (ex : String → Bool) (p : String) : String → Bool :=
  fun q => if q == p then false else ex q

/-- The loop of cli.py lines 388-393: for each target, delete it if it
exists and report accordingly; an absent target is only reported, never
an error. -/
def uninstallLoop (ex : String → Bool) :
    List String → (String → Bool) × List RemovalReport
  | [] => (ex, [])
  | p :: rest =>
    if ex p then
      ((uninstallLoop (removePath ex p) rest).1,
       RemovalReport.removed p :: (uninstallLoop (removePath ex p) rest).2)
    else
      ((uninstallLoop ex rest).1,
       RemovalReport.notFound p :: (uninstallLoop ex rest).2)

/-- The deployed bundle's path, `~/Applications/Chrome (uBO).app`. -/
def APPLICATIONS_APP (home : String) : String :=
  home ++ ("/Applications/" ++ APP_NAME)

/-- The two deletion targets of cli.py lines 383-386. -/
def uninstallTargets (home : String) : List String :=
  [INSTALL_DIR home, APPLICATIONS_APP home]

/-- cli.py lines 379-397, `cmd_uninstall` (after the OS preflight):
process both targets and return the final filesystem map together with
the reports, one per target. -/
def cmd_uninstall (home : String) (ex : String → Bool) :
    (String → Bool) × List RemovalReport :=
  uninstallLoop ex (uninstallTargets home)

/-! ### Spec-side predicate for the flattening fixed point (claim C1) -/

/-- Stated from the spec's words, not from the code: the three "already
flat" layouts of C1 — more than one root entry, a single non-directory
entry, or a single directory without a manifest at its root. -/
def specAlreadyFlat (es : List (String × FSTree)) : Prop :=
  1 < es.length ∨ (∃ nm c, es = [(nm, FSTree.file c)]) ∨
    (∃ nm sub, es = [(nm, FSTree.dir sub)] ∧
      entryExists sub "manifest.json" = false)

/-! ### Helper lemmas -/

theorem find_some_split {α : Type} (p : α → Bool) :
    ∀ (l : List α) (a : α), l.find? p = some a →
      ∃ l1 l2, l = l1 ++ a :: l2 ∧ p a = true ∧ ∀ b ∈ l1, p b = false := by
  intro l
  induction l with
  | nil => intro a h; simp at h
  | cons x xs ih =>
    intro a h
    by_cases hx : p x
    · rw [List.find?_cons_of_pos _ hx] at h
      obtain rfl : x = a := by injection h
      exact ⟨[], xs, rfl, hx, by intro b hb; cases hb⟩
    · rw [List.find?_cons_of_neg _ hx] at h
      obtain ⟨l1, l2, rfl, hpa, hpre⟩ := ih a h
      refine ⟨x :: l1, l2, rfl, hpa, ?_⟩
      intro b hb
      rcases List.mem_cons.mp hb with rfl | hb2
      · exact Bool.eq_false_iff.mpr hx
      · exact hpre b hb2

theorem findEntry_none_iff (es : List (String × FSTree)) (nm : String) :
    findEntry es nm = none ↔ entryExists es nm = false := by
  have h1 : (findEntry es nm = none) ↔ es.find? (fun e => e.1 == nm) = none := by
    unfold findEntry
    rcases hfind : es.find? (fun e => e.1 == nm) with _ | e <;> simp [hfind]
  rw [h1, List.find?_eq_none]
  unfold entryExists
  rw [List.any_eq_false]

theorem entryExists_of_findEntry (es : List (String × FSTree)) (nm : String)
    (t : FSTree) (h : findEntry es nm = some t) : entryExists es nm = true := by
  cases hfind : es.find? (fun e => e.1 == nm) with
  | none => unfold findEntry at h; rw [hfind] at h; cases h
  | some e =>
    have hm := List.mem_of_find?_eq_some hfind
    have hp := List.find?_some hfind
    unfold entryExists
    rw [List.any_eq_true]
    exact ⟨e, hm, hp⟩

theorem hasFileEntry_of_findEntry_file (es : List (String × FSTree)) (nm : String)
    (c : String) (h : findEntry es nm = some (FSTree.file c)) :
    hasFileEntry es nm = true := by
  cases hfind : es.find? (fun e => e.1 == nm) with
  | none => unfold findEntry at h; rw [hfind] at h; cases h
  | some e =>
    unfold findEntry at h
    rw [hfind] at h
    simp only [Option.some.injEq] at h
    have hm := List.mem_of_find?_eq_some hfind
    have hp := List.find?_some hfind
    unfold hasFileEntry
    rw [List.any_eq_true]
    exact ⟨e, hm, by simp only [hp, h, FSTree.isFile, Bool.and_self]⟩

theorem entryExists_of_hasFile (es : List (String × FSTree)) (nm : String)
    (h : hasFileEntry es nm = true) : entryExists es nm = true := by
  unfold hasFileEntry at h
  rw [List.any_eq_true] at h
  obtain ⟨e, hm, hp⟩ := h
  unfold entryExists
  rw [List.any_eq_true]
  exact ⟨e, hm, (Bool.and_eq_true _ _ |>.mp hp).1⟩

theorem flattenStep_of_hasFile (es : List (String × FSTree))
    (h : hasFileEntry es "manifest.json" = true) : flattenStep es = es := by
  rcases es with _ | ⟨⟨nm, t⟩, rest⟩
  · rfl
  · rcases rest with _ | ⟨b, rest2⟩
    · rcases t with c | sub
      · rfl
      · exfalso
        simp [hasFileEntry, FSTree.isFile] at h
    · rcases t with c | sub <;> rfl

/-- Joint computation lemma for `download_and_extract` when the download
and the unpack both succeed: the final state, the missing-manifest
characterisation, and the shape of the success value. -/
theorem download_and_extract_spec (home : String) (jsonOk : String → Bool)
    (s : DLState) (archive : List (String × FSTree)) :
    (download_and_extract home (Except.ok ()) (Except.ok archive) jsonOk s).1
        = DLState.mk false (some (flattenStep archive)) ∧
    ((download_and_extract home (Except.ok ()) (Except.ok archive) jsonOk s).2
        = Except.error (InstallError.missingManifest (manifestNotFoundMsg home))
      ↔ entryExists (flattenStep archive) "manifest.json" = false) ∧
    (∀ c, (download_and_extract home (Except.ok ()) (Except.ok archive) jsonOk s).2
        = Except.ok c →
      findEntry (flattenStep archive) "manifest.json" = some (FSTree.file c)) := by
  unfold download_and_extract
  simp only [tryFinally, dlBody, unlinkTmp, Option.getD_some]
  rcases h : findEntry (flattenStep archive) "manifest.json" with _ | t
  · simp only [h]
    refine ⟨trivial, ?_, by intro c hc; cases hc⟩
    simp [(findEntry_none_iff _ _).mp h]
  · rcases t with c | sub
    · by_cases hj : jsonOk c = true
      · simp only [h, hj, if_true]
        refine ⟨trivial, ?_, ?_⟩
        · constructor
          · intro hc; cases hc
          · intro hfalse
            rw [entryExists_of_findEntry _ _ _ h] at hfalse
            cases hfalse
        · intro c' hc'
          simp only [Except.ok.injEq] at hc'
          rw [hc']
      · rw [Bool.not_eq_true] at hj
        simp only [h, hj, Bool.false_eq_true, if_false]
        refine ⟨trivial, ?_, by intro c' hc'; cases hc'⟩
        constructor
        · intro hc; cases hc
        · intro hfalse
          rw [entryExists_of_findEntry _ _ _ h] at hfalse
          cases hfalse
    · simp only [h]
      refine ⟨trivial, ?_, by intro c' hc'; cases hc'⟩
      constructor
      · intro hc; cases hc
      · intro hfalse
        rw [entryExists_of_findEntry _ _ _ h] at hfalse
        cases hfalse

theorem pollWait_eq_true_iff (present : Nat → Bool) :
    ∀ (fuel i : Nat),
      pollWait present i fuel = true ↔ ∀ j, j < fuel → present (i + j) = true := by
  intro fuel
  induction fuel with
  | zero => intro i; simp [pollWait]
  | succ n ih =>
    intro i
    by_cases h : present i = true
    · rw [show pollWait present i (n + 1) = pollWait present (i + 1) n by
        simp [pollWait, h]]
      rw [ih (i + 1)]
      constructor
      · intro hall j hj
        cases j with
        | zero => simpa using h
        | succ k =>
          have hk := hall k (by omega)
          have heq : i + 1 + k = i + (k + 1) := by omega
          rw [heq] at hk
          exact hk
      · intro hall j hj
        have hk := hall (j + 1) (by omega)
        have heq : i + (j + 1) = i + 1 + j := by omega
        rw [heq] at hk
        exact hk
    · rw [show pollWait present i (n + 1) = false by
        simp [pollWait]
        intro hc
        exact absurd hc h]
      simp only [Bool.false_eq_true, false_iff]
      intro hall
      exact h (by simpa using hall 0 (by omega))

theorem copyTree_launcherBundle (home : String) (chromeIcon : Option String) :
    copyTree (launcherBundle home chromeIcon) = launcherBundle home chromeIcon := by
  rcases chromeIcon with _ | c <;> simp [launcherBundle, copyTree, copyEntries]

theorem uninstall_targets_ne (home : String) :
    APPLICATIONS_APP home ≠ INSTALL_DIR home := by
  unfold APPLICATIONS_APP INSTALL_DIR
  intro h
  have hd : home.data ++ ("/Applications/" ++ APP_NAME).data
      = home.data ++ "/.ublock-chrome".data := by
    rw [← String.data_append, ← String.data_append, h]
  have h2 : ("/Applications/" ++ APP_NAME) = "/.ublock-chrome" :=
    String.ext (List.append_cancel_left hd)
  exact absurd h2 (by decide)

/-! ### Claims -/

/-- C2: for every release descriptor, if its asset list contains at least
one asset whose name contains "chromium" case-insensitively and ends with
".zip", then `fetch_latest_release_url` returns the download URL of the
first such asset in list order together with the descriptor's tag; if no
asset matches, it fails with an error whose message embeds the tag. -/
theorem claim_C2 (r : ReleaseInfo) :
    ((∃ a ∈ r.assets, isChromiumZip a.name = true) →
      ∃ pre a post, r.assets = pre ++ a :: post ∧ isChromiumZip a.name = true ∧
        (∀ b ∈ pre, isChromiumZip b.name = false) ∧
        fetch_latest_release_url r
          = Except.ok (a.browser_download_url, r.tag_name)) ∧
    ((∀ a ∈ r.assets, isChromiumZip a.name = false) →
      fetch_latest_release_url r
        = Except.error (noAssetMsgPrefix ++ r.tag_name)) := by
  constructor
  · intro hex
    have hsome : (r.assets.find? (fun a => isChromiumZip a.name)).isSome := by
      rw [List.find?_isSome]
      obtain ⟨a, ha, hpa⟩ := hex
      exact ⟨a, ha, hpa⟩
    obtain ⟨a, hfind⟩ := Option.isSome_iff_exists.mp hsome
    obtain ⟨pre, post, heq, hpa, hpre⟩ := find_some_split _ _ _ hfind
    refine ⟨pre, a, post, heq, hpa, ?_, ?_⟩
    · intro b hb
      exact Bool.eq_false_iff.mpr (by simpa using hpre b hb)
    · unfold fetch_latest_release_url
      rw [hfind]
  · intro hnone
    have hfind : r.assets.find? (fun a => isChromiumZip a.name) = none := by
      rw [List.find?_eq_none]
      intro x hx
      simp [hnone x hx]
    unfold fetch_latest_release_url
    rw [hfind]

/-- Witness for C2 at a concrete release: the second asset is the first
Chromium zip, and resolution picks it together with the tag. -/
theorem claim_C2_witness :
    ∃ pre a post,
      (ReleaseInfo.mk "1.60.0"
          [Asset.mk "uBlock0_1.60.0.firefox.signed.xpi" "u1",
           Asset.mk "uBlock0_1.60.0.chromium.zip" "u2"]).assets
        = pre ++ a :: post ∧
      isChromiumZip a.name = true ∧
      (∀ b ∈ pre, isChromiumZip b.name = false) ∧
      fetch_latest_release_url
          (ReleaseInfo.mk "1.60.0"
            [Asset.mk "uBlock0_1.60.0.firefox.signed.xpi" "u1",
             Asset.mk "uBlock0_1.60.0.chromium.zip" "u2"])
        = Except.ok (a.browser_download_url, "1.60.0") :=
  (claim_C2 (ReleaseInfo.mk "1.60.0"
      [Asset.mk "uBlock0_1.60.0.firefox.signed.xpi" "u1",
       Asset.mk "uBlock0_1.60.0.chromium.zip" "u2"])).1 (by decide)

/-- C6: in `quit_chrome_if_running`, if some poll within the 30 rounds
reports the process gone, no forced-termination signal is sent; if every
poll still sees it, exactly one forced-termination signal is sent. -/
theorem claim_C6 (present : Nat → Bool) :
    ((∃ k, k < 30 ∧ present k = false) →
      (quit_chrome_if_running true present).forceKills = 0) ∧
    ((∀ k, k < 30 → present k = true) →
      (quit_chrome_if_running true present).forceKills = 1) := by
  constructor
  · rintro ⟨k, hk, hkf⟩
    have hpw : pollWait present 0 30 = false := by
      cases hpw : pollWait present 0 30
      · rfl
      · have := (pollWait_eq_true_iff present 30 0).mp hpw k hk
        rw [Nat.zero_add] at this
        rw [this] at hkf
        cases hkf
    simp [quit_chrome_if_running, hpw]
  · intro hall
    have hpw : pollWait present 0 30 = true :=
      (pollWait_eq_true_iff present 30 0).mpr
        (fun j hj => by rw [Nat.zero_add]; exact hall j hj)
    simp [quit_chrome_if_running, hpw]

/-- Witness for C6: a process that is gone at the first poll draws no
kill signal; one that never exits draws exactly one. -/
theorem claim_C6_witness :
    (quit_chrome_if_running true (fun _ => false)).forceKills = 0 ∧
    (quit_chrome_if_running true (fun _ => true)).forceKills = 1 :=
  ⟨(claim_C6 (fun _ => false)).1 ⟨0, by omega, rfl⟩,
   (claim_C6 (fun _ => true)).2 (fun _ _ => rfl)⟩

/-- C1: after `download_and_extract` on a successfully unpacked archive,
a manifest file is at the extension directory's root whether the payload
was flat or wrapped in exactly one extra directory level; and the
flattening step is a fixed point on already-flat layouts (more than one
root entry, a single non-directory entry, or a single directory without
a manifest at its root). -/
theorem claim_C1 (home : String) (jsonOk : String → Bool) (s : DLState)
    (nm : String) (archive sub : List (String × FSTree)) :
    (hasFileEntry archive "manifest.json" = true →
      ∃ es, (download_and_extract home (Except.ok ()) (Except.ok archive)
          jsonOk s).1.extDir = some es ∧
        hasFileEntry es "manifest.json" = true) ∧
    (hasFileEntry sub "manifest.json" = true →
      ∃ es, (download_and_extract home (Except.ok ())
          (Except.ok [(nm, FSTree.dir sub)]) jsonOk s).1.extDir = some es ∧
        hasFileEntry es "manifest.json" = true) ∧
    (specAlreadyFlat archive → flattenStep archive = archive) := by
  refine ⟨?_, ?_, ?_⟩
  · intro h
    refine ⟨archive, ?_, h⟩
    rw [(download_and_extract_spec home jsonOk s archive).1,
      flattenStep_of_hasFile archive h]
  · intro h
    refine ⟨sub, ?_, h⟩
    rw [(download_and_extract_spec home jsonOk s [(nm, FSTree.dir sub)]).1]
    have he : entryExists sub "manifest.json" = true :=
      entryExists_of_hasFile sub "manifest.json" h
    simp [flattenStep, he]
  · intro h
    rcases h with hlen | ⟨nm', c, rfl⟩ | ⟨nm', sub', rfl, hm⟩
    · rcases archive with _ | ⟨⟨n1, t1⟩, rest⟩
      · simp at hlen
      · rcases rest with _ | ⟨b, rest2⟩
        · simp at hlen
        · rcases t1 with c | s1 <;> rfl
    · rfl
    · simp [flattenStep, hm]

/-- Witness for C1: a once-wrapped archive ends with the manifest at the
root, and a two-entry (flat) layout is untouched by the flattening
step. -/
theorem claim_C1_witness :
    (∃ es, (download_and_extract "/Users/alice" (Except.ok ())
        (Except.ok [("uBlock0.chromium",
          FSTree.dir [("manifest.json", FSTree.file "mf")])])
        (fun _ => true) (DLState.mk false none)).1.extDir = some es ∧
      hasFileEntry es "manifest.json" = true) ∧
    flattenStep [("assets", FSTree.file "x"), ("manifest.json", FSTree.file "y")]
      = [("assets", FSTree.file "x"), ("manifest.json", FSTree.file "y")] :=
  ⟨(claim_C1 "/Users/alice" (fun _ => true) (DLState.mk false none)
      "uBlock0.chromium" [("manifest.json", FSTree.file "mf")]
      [("manifest.json", FSTree.file "mf")]).2.1 (by decide),
   (claim_C1 "/Users/alice" (fun _ => true) (DLState.mk false none) "z"
      [("assets", FSTree.file "x"), ("manifest.json", FSTree.file "y")]
      []).2.2 (Or.inl (by decide))⟩

/-- C3 counterexample: run `download_and_extract` on an archive that
unpacks to an empty tree.  It raises the missing-manifest error, yet the
extension directory exists and has no manifest at its root — so the
claimed invariant fails at the observable point right after the error. -/
theorem claim_C3_counterexample :
    (download_and_extract "/Users/alice" (Except.ok ()) (Except.ok [])
        (fun _ => true) (DLState.mk false none)).1.extDir = some [] ∧
    (download_and_extract "/Users/alice" (Except.ok ()) (Except.ok [])
        (fun _ => true) (DLState.mk false none)).2
      = Except.error
          (InstallError.missingManifest (manifestNotFoundMsg "/Users/alice")) ∧
    entryExists [] "manifest.json" = false :=
  ⟨rfl, rfl, rfl⟩

/-- C3 amended: after `download_and_extract` completes or fails on an
unpacked archive, the extension directory always exists; if the call
succeeded, a manifest file is at its root; but on the missing-manifest
failure path the directory exists with no manifest entry at its root, so
the invariant holds after success, not after that failure. -/
theorem claim_C3 (home : String) (jsonOk : String → Bool) (s : DLState)
    (archive : List (String × FSTree)) :
    ((download_and_extract home (Except.ok ()) (Except.ok archive)
        jsonOk s).1.extDir).isSome = true ∧
    (∀ c, (download_and_extract home (Except.ok ()) (Except.ok archive)
        jsonOk s).2 = Except.ok c →
      hasFileEntry ((download_and_extract home (Except.ok ()) (Except.ok archive)
        jsonOk s).1.extDir.getD []) "manifest.json" = true) ∧
    ((download_and_extract home (Except.ok ()) (Except.ok archive) jsonOk s).2
        = Except.error (InstallError.missingManifest (manifestNotFoundMsg home)) →
      entryExists ((download_and_extract home (Except.ok ()) (Except.ok archive)
        jsonOk s).1.extDir.getD []) "manifest.json" = false) := by
  obtain ⟨h1, h2, h3⟩ := download_and_extract_spec home jsonOk s archive
  refine ⟨by rw [h1]; rfl, ?_, ?_⟩
  · intro c hc
    rw [h1]
    exact hasFileEntry_of_findEntry_file _ _ _ (h3 c hc)
  · intro herr
    rw [h1]
    exact h2.mp herr

/-- Witness for C3 (amended): a flat archive with a manifest file
installs successfully and the manifest is at the root afterwards. -/
theorem claim_C3_witness :
    hasFileEntry ((download_and_extract "/Users/alice" (Except.ok ())
        (Except.ok [("manifest.json", FSTree.file "mdata")]) (fun _ => true)
        (DLState.mk false none)).1.extDir.getD []) "manifest.json" = true :=
  (claim_C3 "/Users/alice" (fun _ => true) (DLState.mk false none)
    [("manifest.json", FSTree.file "mdata")]).2.1 "mdata" rfl

/-- C4: on every exit path of `download_and_extract` — success, download
failure, unpack failure — the temporary archive file created before the
`try` block is gone afterwards. -/
theorem claim_C4 (home : String) (dl : Except String Unit)
    (unpack : Except String (List (String × FSTree)))
    (jsonOk : String → Bool) (s : DLState) :
    (DLState.mk true (some [])).tmpExists = true ∧
    (tryFinally (dlBody dl unpack) unlinkTmp
        (DLState.mk true (some []))).1.tmpExists = false ∧
    (download_and_extract home dl unpack jsonOk s).1.tmpExists = false := by
  refine ⟨rfl, rfl, ?_⟩
  rcases dl with e | u
  · rfl
  · cases u
    rcases unpack with e | tree
    · rfl
    · rw [(download_and_extract_spec home jsonOk s tree).1]

/-- C5: on an unpacked archive, `download_and_extract` raises the
missing-manifest error exactly when no `manifest.json` entry exists at
the extension directory's root after flattening, and the error message
names the expected location. -/
theorem claim_C5 (home : String) (jsonOk : String → Bool) (s : DLState)
    (archive : List (String × FSTree)) :
    ((download_and_extract home (Except.ok ()) (Except.ok archive) jsonOk s).2
        = Except.error (InstallError.missingManifest (manifestNotFoundMsg home))
      ↔ entryExists (flattenStep archive) "manifest.json" = false) ∧
    manifestNotFoundMsg home
      = "manifest.json not found after extraction in " ++ EXTENSION_DIR home :=
  ⟨(download_and_extract_spec home jsonOk s archive).2.1, rfl⟩

/-- C7: after `create_launcher_app` followed by
`install_app_to_applications`, the deployed bundle equals the private
bundle byte for byte, the private bundle is the freshly built launcher,
and any prior applications-folder copy was removed before the copy. -/
theorem claim_C7 (home : String) (chromeIcon : Option String) (s : AppFS) :
    ((install_app_to_applications home
        (create_launcher_app home chromeIcon s).1).1).appsBundle
      = ((install_app_to_applications home
          (create_launcher_app home chromeIcon s).1).1).privateBundle ∧
    ((install_app_to_applications home
        (create_launcher_app home chromeIcon s).1).1).privateBundle
      = some (launcherBundle home chromeIcon) ∧
    (removePriorAppCopy (create_launcher_app home chromeIcon s).1).appsBundle
      = none := by
  have hrm : removePriorAppCopy (create_launcher_app home chromeIcon s).1
      = AppFS.mk (some (launcherBundle home chromeIcon)) none := by
    unfold removePriorAppCopy create_launcher_app
    rcases hsb : s.appsBundle with _ | b <;> simp [hsb]
  refine ⟨?_, ?_, by rw [hrm]⟩
  · unfold install_app_to_applications
    rw [hrm]
    simp [copyTree_launcherBundle]
  · unfold install_app_to_applications
    rw [hrm]

/-- C8: `cmd_launch` with the extension directory or its root manifest
absent exits with status 1 and the install hint, sending no process
signals and starting nothing; with both present it runs the quit
sequence (a no-op when the presence check already reports not running)
and starts Chrome whose `--args` tail is exactly the MV2 feature-flag
string and the extension-path reference. -/
theorem claim_C8 (home : String) (extDirExists manifestAtRoot initialPresent : Bool)
    (present : Nat → Bool) :
    ((extDirExists = false ∨ manifestAtRoot = false) →
      cmd_launch home extDirExists manifestAtRoot initialPresent present
        = LaunchResult.mk 1 (some launchNotInstalledMsg) (ProcActions.mk 0 0) none ∧
      strContains launchNotInstalledMsg "ublock-chrome install" = true) ∧
    (extDirExists = true → manifestAtRoot = true →
      cmd_launch home extDirExists manifestAtRoot initialPresent present
        = LaunchResult.mk 0 none (quit_chrome_if_running initialPresent present)
            (some (launch_chrome_with_ubo home)) ∧
      (initialPresent = false →
        quit_chrome_if_running initialPresent present = ProcActions.mk 0 0) ∧
      (launch_chrome_with_ubo home).drop 4
        = [MV2_FLAGS, "--load-extension=" ++ EXTENSION_DIR home]) := by
  constructor
  · rintro (rfl | rfl)
    · exact ⟨by simp [cmd_launch], by decide⟩
    · exact ⟨by simp [cmd_launch], by decide⟩
  · rintro rfl rfl
    refine ⟨by simp [cmd_launch], ?_, rfl⟩
    rintro rfl
    rfl

/-- Witness for C8: with no extension directory, `cmd_launch` exits 1
with the install hint and performs no process side effects. -/
theorem claim_C8_witness :
    cmd_launch "/Users/alice" false true false (fun _ => true)
      = LaunchResult.mk 1 (some launchNotInstalledMsg) (ProcActions.mk 0 0) none ∧
    strContains launchNotInstalledMsg "ublock-chrome install" = true :=
  (claim_C8 "/Users/alice" false true false (fun _ => true)).1 (Or.inl rfl)

/-- C9: `cmd_uninstall` succeeds on every starting filesystem state,
reports each of its two targets as removed or not-found according to
whether it existed, and leaves both targets absent. -/
theorem claim_C9 (home : String) (ex : String → Bool) :
    (cmd_uninstall home ex).2
      = [if ex (INSTALL_DIR home) = true
           then RemovalReport.removed (INSTALL_DIR home)
           else RemovalReport.notFound (INSTALL_DIR home),
         if ex (APPLICATIONS_APP home) = true
           then RemovalReport.removed (APPLICATIONS_APP home)
           else RemovalReport.notFound (APPLICATIONS_APP home)] ∧
    (cmd_uninstall home ex).1 (INSTALL_DIR home) = false ∧
    (cmd_uninstall home ex).1 (APPLICATIONS_APP home) = false := by
  have hne := uninstall_targets_ne home
  have hb21 : (APPLICATIONS_APP home == INSTALL_DIR home) = false :=
    beq_eq_false_iff_ne.mpr hne
  have hb12 : (INSTALL_DIR home == APPLICATIONS_APP home) = false :=
    beq_eq_false_iff_ne.mpr (Ne.symm hne)
  unfold cmd_uninstall uninstallTargets
  cases h1 : ex (INSTALL_DIR home) <;> cases h2 : ex (APPLICATIONS_APP home) <;>
    simp [uninstallLoop, removePath, h1, h2, hb21, hb12]

/-- C10 counterexample: an archive whose single root entry is a
*directory named `manifest.json`* with no manifest inside satisfies the
claim's premise (one entry, a directory, no manifest at its root), the
flattening step indeed does nothing, yet `download_and_extract` does not
raise the missing-manifest error — the existence check at the manifest
path passes (it finds the directory) and the subsequent read fails
instead, as Python's `open` on a directory does. -/
theorem claim_C10_counterexample :
    flattenStep [("manifest.json", FSTree.dir [("inner", FSTree.file "payload")])]
      = [("manifest.json", FSTree.dir [("inner", FSTree.file "payload")])] ∧
    (download_and_extract "/Users/alice" (Except.ok ())
        (Except.ok [("manifest.json",
          FSTree.dir [("inner", FSTree.file "payload")])])
        (fun _ => true) (DLState.mk false none)).2
      = Except.error InstallError.manifestReadError ∧
    InstallError.manifestReadError
      ≠ InstallError.missingManifest (manifestNotFoundMsg "/Users/alice") :=
  ⟨rfl, rfl, by decide⟩

/-- C10 amended: if after extraction the extension directory contains
exactly one entry that is a directory, that directory has no
`manifest.json` entry at its own root, and the directory is not itself
named `manifest.json`, then the flattening step moves nothing and
`download_and_extract` raises the missing-manifest error naming the
extension directory's root — even when the manifest sits two or more
levels down. -/
theorem claim_C10 (home : String) (jsonOk : String → Bool) (s : DLState)
    (nm : String) (sub : List (String × FSTree))
    (hm : entryExists sub "manifest.json" = false)
    (hn : (nm == "manifest.json") = false) :
    flattenStep [(nm, FSTree.dir sub)] = [(nm, FSTree.dir sub)] ∧
    (download_and_extract home (Except.ok ()) (Except.ok [(nm, FSTree.dir sub)])
        jsonOk s).2
      = Except.error (InstallError.missingManifest (manifestNotFoundMsg home)) := by
  have hflat : flattenStep [(nm, FSTree.dir sub)] = [(nm, FSTree.dir sub)] := by
    simp [flattenStep, hm]
  refine ⟨hflat, ?_⟩
  rw [(download_and_extract_spec home jsonOk s [(nm, FSTree.dir sub)]).2.1, hflat]
  simp [entryExists, hn]

/-- Witness for C10 (amended): the payload, manifest included, sits two
levels down; flattening does nothing and the missing-manifest error is
raised for the extension directory's root. -/
theorem claim_C10_witness :
    flattenStep [("uBlock0.chromium",
        FSTree.dir [("nested", FSTree.dir [("manifest.json", FSTree.file "mf")])])]
      = [("uBlock0.chromium",
          FSTree.dir [("nested", FSTree.dir [("manifest.json", FSTree.file "mf")])])] ∧
    (download_and_extract "/Users/alice" (Except.ok ())
        (Except.ok [("uBlock0.chromium",
          FSTree.dir [("nested", FSTree.dir [("manifest.json", FSTree.file "mf")])])])
        (fun _ => true) (DLState.mk false none)).2
      = Except.error
          (InstallError.missingManifest (manifestNotFoundMsg "/Users/alice")) :=
  claim_C10 "/Users/alice" (fun _ => true) (DLState.mk false none)
    "uBlock0.chromium"
    [("nested", FSTree.dir [("manifest.json", FSTree.file "mf")])]
    (by decide) (by decide)

end UblockChrome
